import Mathlib

/-!
Shallow embedding of the PSLab firmware's instrument controllers
(src/instruments/logic_analyzer.c and src/instruments/oscilloscope.c).
The peripheral capability layer (edge detector IC1-4, shared timer TMR5,
change notification CN, analog converter ADC, DMA movers DMA0-3, pin reads)
is reified as an event trace: each embedded operation returns the new
instrument state together with the list of capability calls it performs,
in source order.  UART transport writes are not part of the capability
layer and are not traced.
-/

/-- Edge type for logic transitions.  Modelled from the spec (types.h is not
under src/): a direction is rising, falling, any, or none (glossary of the
spec). -/
inductive Edge where
  | none
  | any
  | falling
  | rising
deriving DecidableEq

/-- Channel argument as passed to capability functions.  Modelled from the
spec (types.h is not under src/): channels are small indices 0..3, and
CHANNEL_NONE is the distinguished no-channel value, here Option.none. -/
abbrev Channel := Option Nat

/-- Return values of command handlers, from commands.h usage in the source:
SUCCESS, ARGUMENT_ERROR, FAILED. -/
inductive response_t where
  | SUCCESS
  | ARGUMENT_ERROR
  | FAILED
deriving DecidableEq

/-- One capability call.  Constructor arguments record the channel index and
the configuration data the source passes down. -/
inductive Event where
  | ICstartFast (i : Nat) (e : Edge)
  | ICbufRead (i : Nat)
  | ICstart (ch : Channel) (e : Edge)
  | ICreset (i : Nat)
  | ICsetup (i : Nat)
  | ICintEnable (ch : Channel)
  | ICintDisable (ch : Channel)
  | DMAstartFast (i : Nat)
  | DMAreset (i : Nat)
  | DMAsetup (i : Nat) (count : Nat) (addr : Nat)
  | DMAintEnable (i : Nat)
  | DMAprogressRead (i : Nat)
  | TMRstartFast
  | TMRreset
  | TMRsetPeriod (p : Nat)
  | TMRsetPrescaler (p : Nat)
  | CNreset
  | CNintEnable (ch : Channel)
  | PINSread
  | BUFclear (addr : Nat) (len : Nat)
  | ADCreset
  | ADCsetup (nc : Nat) (use12bit : Bool)
  | ADCstart
  | ADCintEnable
  | ADCintDisable
deriving DecidableEq

/-- Number of logic analyzer / oscilloscope channels (CHANNEL_NUMEL).
Modelled from the spec (types.h is not under src/): up to 4 channels. -/
def CHANNEL_NUMEL : Nat := 4

/-- Capacity of the shared sample buffer in 16-bit words (BUFFER_SIZE).
Modelled from the spec (helpers/buffer.h is not under src/): the logic
analyzer's file comment says up to 10k timestamps can be captured across
all four channels, and the spec describes a fixed-capacity region. -/
def BUFFER_SIZE : Nat := 10000

/-- Instruction clock frequency in Hz (FCY).  Modelled from the spec
(helpers/delay.h is not under src/): the clock-to-time scaling factor is
the clock frequency; PSLab runs at 64 MHz. -/
def FCY : Nat := 64000000

/-- Word offset of channel i's sub-region of the sample buffer for an
n-channel session: BUFFER + i * BUFFER_SIZE / num_channels in the source
(logic_analyzer.c setup and oscilloscope.c setup); * and / associate left. -/
def channel_address (i n : Nat) : Nat := i * BUFFER_SIZE / n

/-- struct LogicAnalyzerState (logic_analyzer.c).  Machine integers become
Nat, the pointer array initial_addresses becomes word offsets into the
sample buffer. -/
structure LogicAnalyzerState where
  locked : Bool
  configured_channels : Nat
  active_channels : Nat
  capture_edge : Edge
  trigger_edge : Edge
  initial_states : Nat
  events_per_channel : Nat
  initial_addresses : Nat → Nat
  final_progress : Nat → Nat

/-- The all-zero default state: g_STATE_DEFAULT, also the starting value of g_state. -/
def g_STATE_DEFAULT : LogicAnalyzerState where
  locked := false
  configured_channels := 0
  active_channels := 0
  capture_edge := Edge.none
  trigger_edge := Edge.none
  initial_states := 0
  events_per_channel := 0
  initial_addresses := fun _ => 0
  final_progress := fun _ => 0

/-- One fall-through block of the switch in static void trigger:
ICx_start_fast(capture_edge); ICxBUF; DMA(x-1)_start_fast(); for channel
index i = x-1. -/
def trigger_block (i : Nat) (e : Edge) : List Event :=
  [Event.ICstartFast i e, Event.ICbufRead i, Event.DMAstartFast i]

/-- The descending fall-through switch on configured_channels in static void
trigger (cases 4, 3, 2, 1 falling through to the next). -/
def trigger_chain (n : Nat) (e : Edge) : List Event :=
  match n with
  | 4 => trigger_block 3 e ++ trigger_block 2 e ++ trigger_block 1 e ++ trigger_block 0 e
  | 3 => trigger_block 2 e ++ trigger_block 1 e ++ trigger_block 0 e
  | 2 => trigger_block 1 e ++ trigger_block 0 e
  | 1 => trigger_block 0 e
  | _ => []

/-- static void trigger(Channel channel) of logic_analyzer.c.  After the
switch: TMR5_start_fast(); initial_states = PINS_get_la_states();
active_channels = configured_channels; TMR_set_period(g_TIMER, 0); then the
single-shot trigger interrupt (IC or CN) is released according to
trigger_edge.  pins is the value PINS_get_la_states() returns. -/
def LA_trigger (s : LogicAnalyzerState) (channel : Channel) (pins : Nat) :
    LogicAnalyzerState × List Event :=
  let chain := trigger_chain s.configured_channels s.capture_edge
  let tail :=
    if s.trigger_edge = Edge.rising ∨ s.trigger_edge = Edge.falling then
      [Event.ICintDisable channel]
    else if s.trigger_edge = Edge.any then
      [Event.CNreset]
    else []
  ({ s with initial_states := pins, active_channels := s.configured_channels },
   chain ++ [Event.TMRstartFast, Event.PINSread, Event.TMRsetPeriod 0] ++ tail)

/-- Per-channel body of the loop in static void setup of logic_analyzer.c:
IC_reset(i); DMA_reset(i); DMA_setup(i, events, address, DMA_SOURCE_IC);
initial_addresses[i] = address; BUFFER_set(address, 0, events);
DMA_interrupt_enable(i, cleanup_callback); IC_setup(i, timer2ictsel). -/
def setup_channel (s : LogicAnalyzerState) (n e i : Nat) :
    LogicAnalyzerState × List Event :=
  let addr := channel_address i n
  ({ s with initial_addresses := Function.update s.initial_addresses i addr },
   [Event.ICreset i, Event.DMAreset i, Event.DMAsetup i e addr,
    Event.BUFclear addr e, Event.DMAintEnable i, Event.ICsetup i])

/-- static void setup(num_channels, events, edge) of logic_analyzer.c:
locked = true; configured_channels, capture_edge, events_per_channel are
recorded; then the per-channel loop runs for i = 0 .. num_channels-1. -/
def LA_setup (s : LogicAnalyzerState) (num_channels events : Nat) (edge : Edge) :
    LogicAnalyzerState × List Event :=
  let s0 := { s with locked := true, configured_channels := num_channels,
                     capture_edge := edge, events_per_channel := events }
  (List.range num_channels).foldl
    (fun acc i =>
      let r := setup_channel acc.1 num_channels events i
      (r.1, acc.2 ++ r.2))
    (s0, [])

/-- static void arm(channel, edge) of logic_analyzer.c:
TMR_set_period(g_TIMER, 1); trigger_edge = edge; immediate trigger when
channel or edge is NONE; CN interrupt when edge is ANY; IC interrupt
otherwise. -/
def LA_arm (s : LogicAnalyzerState) (channel : Channel) (edge : Edge) (pins : Nat) :
    LogicAnalyzerState × List Event :=
  let s1 := { s with trigger_edge := edge }
  if channel = Option.none ∨ edge = Edge.none then
    let r := LA_trigger s1 Option.none pins
    (r.1, Event.TMRsetPeriod 1 :: r.2)
  else if edge = Edge.any then
    (s1, [Event.TMRsetPeriod 1, Event.CNreset, Event.CNintEnable channel])
  else
    (s1, [Event.TMRsetPeriod 1, Event.ICstart channel edge, Event.ICintEnable channel])

/-- response_t LA_capture(void) of logic_analyzer.c, with the five values
read from UART as parameters.  Validation order is that of the source:
locked, num_channels == 0, num_channels > CHANNEL_NUMEL,
events * num_channels > BUFFER_SIZE, edge == EDGE_NONE.  The product
events * num_channels is computed in the target's 16-bit unsigned int
arithmetic (uint16_t * uint8_t promotes to 16-bit unsigned int on the
dsPIC33/XC16 target), hence the explicit % 65536. -/
def LA_capture (s : LogicAnalyzerState) (num_channels events : Nat) (edge : Edge)
    (trigger_pin : Channel) (trigger_edge : Edge) (pins : Nat) :
    response_t × LogicAnalyzerState × List Event :=
  if s.locked then (response_t.FAILED, s, [])
  else if num_channels = 0 then (response_t.ARGUMENT_ERROR, s, [])
  else if num_channels > CHANNEL_NUMEL then (response_t.ARGUMENT_ERROR, s, [])
  else if (events * num_channels) % 65536 > BUFFER_SIZE then (response_t.ARGUMENT_ERROR, s, [])
  else if edge = Edge.none then (response_t.ARGUMENT_ERROR, s, [])
  else
    let r1 := LA_setup s num_channels events edge
    let r2 := LA_arm r1.1 trigger_pin trigger_edge pins
    (response_t.SUCCESS, r2.1, r1.2 ++ r2.2)

/-- static void cleanup_callback(Channel channel) of logic_analyzer.c:
final_progress[channel] = events_per_channel; DMA_reset(channel);
IC_reset(channel); active_channels is pre-decremented (uint8_t, so the
decrement wraps mod 256); when it reaches 0: TMR_reset(g_TIMER) and
locked = false. -/
def cleanup_callback (s : LogicAnalyzerState) (ch : Nat) :
    LogicAnalyzerState × List Event :=
  let a := (s.active_channels + 255) % 256
  let s1 := { s with final_progress := Function.update s.final_progress ch s.events_per_channel,
                     active_channels := a }
  if a = 0 then
    ({ s1 with locked := false }, [Event.DMAreset ch, Event.ICreset ch, Event.TMRreset])
  else
    (s1, [Event.DMAreset ch, Event.ICreset ch])

/-- Runs cleanup_callback once per channel in the order given by l,
concatenating the capability traces.  This models the per-channel DMA
completion interrupts firing in an arbitrary order. -/
def runCleanups (s : LogicAnalyzerState) (l : List Nat) :
    LogicAnalyzerState × List Event :=
  match l with
  | [] => (s, [])
  | ch :: r =>
      let r1 := cleanup_callback s ch
      let r2 := runCleanups r1.1 r
      (r2.1, r1.2 ++ r2.2)

/-- response_t LA_stop(void) of logic_analyzer.c.  dma i models
DMA_get_progress(i), the live DMA transfer count.  If not locked, returns
SUCCESS with no effect; otherwise CN_reset(); TMR_reset(g_TIMER); then for
each i in 0..3: IC_reset(i); final_progress[i] = DMA_get_progress(i);
DMA_reset(i); finally locked = false.  Note the source leaves
active_channels untouched. -/
def LA_stop (s : LogicAnalyzerState) (dma : Nat → Nat) :
    response_t × LogicAnalyzerState × List Event :=
  if s.locked = false then (response_t.SUCCESS, s, [])
  else
    let fp0 := Function.update s.final_progress 0 (dma 0)
    let fp1 := Function.update fp0 1 (dma 1)
    let fp2 := Function.update fp1 2 (dma 2)
    let fp3 := Function.update fp2 3 (dma 3)
    (response_t.SUCCESS,
     { s with locked := false, final_progress := fp3 },
     [Event.CNreset, Event.TMRreset,
      Event.ICreset 0, Event.DMAprogressRead 0, Event.DMAreset 0,
      Event.ICreset 1, Event.DMAprogressRead 1, Event.DMAreset 1,
      Event.ICreset 2, Event.DMAprogressRead 2, Event.DMAreset 2,
      Event.ICreset 3, Event.DMAprogressRead 3, Event.DMAreset 3])

/-- response_t LA_get_progress(void) of logic_analyzer.c: writes
configured_channels, done = !locked, then per configured channel the frozen
final_progress[i] when done, else the live DMA_get_progress(i). -/
def LA_get_progress (s : LogicAnalyzerState) (dma : Nat → Nat) :
    Nat × Bool × List Nat :=
  let done := !s.locked
  (s.configured_channels, done,
   (List.range s.configured_channels).map
     (fun i => if done then s.final_progress i else dma i))

/-- The inner loop of LA_get_timestamps: previous = 0; for each captured
timestamp, emit timestamp - previous (uint16_t arithmetic, hence mod 2^16)
and set previous to the raw timestamp. -/
def timedeltas (prev : Nat) (ts : List Nat) : List Nat :=
  match ts with
  | [] => []
  | t :: rest => ((t + 65536 - prev) % 65536) :: timedeltas t rest

/-- The raw timestamps of channel i: the final_progress i words the DMA
deposited starting at the channel's initial address.  buf models the sample
buffer contents by word offset. -/
def channel_raw (s : LogicAnalyzerState) (buf : Nat → Nat) (i : Nat) : List Nat :=
  (List.range (s.final_progress i)).map (fun j => buf (s.initial_addresses i + j))

/-- response_t LA_get_timestamps(void) of logic_analyzer.c: emits
initial_states, the scaling factor FCY / prescaler with prescaler 1, the
channel count, and per channel its event count and the timedeltas of its
captured raw timestamps. -/
def LA_get_timestamps (s : LogicAnalyzerState) (buf : Nat → Nat) :
    Nat × Nat × Nat × List (Nat × List Nat) :=
  (s.initial_states, FCY / 1, s.configured_channels,
   (List.range s.configured_channels).map
     (fun i => (s.final_progress i, timedeltas 0 (channel_raw s buf i))))

/-- struct OscilloscopeState (oscilloscope.c): num_channels, ch0map,
resolution, gains[CHANNEL_NUMEL]. -/
structure OscilloscopeState where
  num_channels : Nat
  ch0map : Nat
  resolution : Nat
  gains : Nat → Nat

/-- The all-zero starting value of the static OscilloscopeState g_state of oscilloscope.c. -/
def OSC_STATE_DEFAULT : OscilloscopeState where
  num_channels := 0
  ch0map := 0
  resolution := 0
  gains := fun _ => 0

/-- struct TriggerState (oscilloscope.c). -/
structure TriggerState where
  channel : Nat
  level : Nat
  waiting : Nat
  timeout : Nat
  ready : Bool
  polarity : Bool
deriving DecidableEq

/-- ADC_pin_ranges (registers_ng/adc.c): -33, -33, 6.6, 6.6, 3.3, 3.3, 3.3
for CH1, CH2, CH3, MIC, CAP, RES, VOL. -/
def ADC_pin_ranges : Nat → ℚ := fun i =>
  match i with
  | 0 => -33
  | 1 => -33
  | 2 => 33 / 5
  | 3 => 33 / 5
  | 4 => 33 / 10
  | 5 => 33 / 10
  | 6 => 33 / 10
  | _ => 0

/-- ADC_pin_offsets (registers_ng/adc.c): -16.5, -16.5, 3.3, 3.3, 0, 0, 0. -/
def ADC_pin_offsets : Nat → ℚ := fun i =>
  match i with
  | 0 => -33 / 2
  | 1 => -33 / 2
  | 2 => 33 / 10
  | 3 => 33 / 10
  | _ => 0

/-- Truncation toward zero of a rational: the C float-to-integer
conversion.  Source floats are idealized as exact rationals throughout. -/
def ratTrunc (q : ℚ) : Int := if 0 ≤ q then ⌊q⌋ else -⌊-q⌋

/-- static int32_t clamp(v, lo, hi) of oscilloscope.c: max(lo, min(hi, v)). -/
def clamp (v lo hi : Int) : Int := max lo (min hi v)

/-- The prescaler escalation loop of oscilloscope.c setup:
while (delay > UINT16_MAX) { ++prescaler; delay /= 8; }.  p is the
TMR_Prescaler value (an enum whose increments the source does not bound)
and d the remaining delay in ticks. -/
def tmr_escalate (p d : Nat) : Nat × Nat :=
  if 65535 < d then tmr_escalate (p + 1) (d / 8) else (p, d)
termination_by d
decreasing_by exact Nat.div_lt_self (by omega) (by omega)

/-- static void setup(num_channels, samples, timegap, ch1_gain, ch2_gain) of
oscilloscope.c.  timegap is the requested sample interval (float idealized
as ℚ); the raw tick count (uint32_t)(timegap * FCY) truncates toward zero
and wraps mod 2^32.  The source assigns only g_state.gains: the
num_channels, ch0map and resolution fields of g_state are never written by
any function of the file, so they keep their previous (all-zero at start)
values.  The local variable resolution = 1 << (use_12bit ? 12 : 10) is used
only for the per-channel scaling factors written to UART (untraced). -/
def OSC_setup (g : OscilloscopeState) (num_channels samples : Nat) (timegap : ℚ)
    (ch1_gain ch2_gain : Nat) : OscilloscopeState × List Event :=
  let gains1 := Function.update g.gains 0 ch1_gain
  let gains2 := Function.update gains1 1 ch2_gain
  let gains3 := Function.update gains2 2 1
  let gains4 := Function.update gains3 3 1
  let use12 : Bool := decide ((8 : ℚ) ≤ timegap) && decide (num_channels = 1)
  let delay0 := (ratTrunc (timegap * (FCY : ℚ))).toNat % 4294967296
  let pd := tmr_escalate 0 delay0
  let dmaEvents := (List.range num_channels).foldl
    (fun acc i =>
      acc ++ [Event.DMAreset i, Event.DMAsetup i samples (channel_address i num_channels)])
    []
  ({ g with gains := gains4 },
   [Event.ADCreset, Event.ADCsetup num_channels use12, Event.ADCstart,
    Event.TMRreset, Event.TMRsetPrescaler pd.1, Event.TMRsetPeriod pd.2] ++ dmaEvents)

/-- static void arm(trigger_channel, trigger_voltage, trigger_dir,
trigger_timeout) of oscilloscope.c.  preSample models the value of
*ADC_p_BUFFERS[trigger_channel] read when trigger_dir is EDGE_ANY.  The
trigger level is (int16_t)((trigger_voltage - offset) / range * resolution)
clamped to [1, resolution - 1], where resolution is g_state.resolution
(a uint16_t, so resolution - 1 wraps mod 2^16 when resolution is 0).  In
the source's final else branch polarity is assigned from the expression
trigger == EDGE_RISING, which compares the address of the interrupt
callback function trigger with an enumerator and is never true on the
target, so it is embedded as false. -/
def OSC_arm (g : OscilloscopeState) (trigger_channel : Nat) (trigger_voltage : ℚ)
    (trigger_dir : Edge) (trigger_timeout : Nat) (preSample : Nat) :
    TriggerState × List Event :=
  let gain := g.gains trigger_channel
  let range := ADC_pin_ranges trigger_channel / (gain : ℚ)
  let offset := ADC_pin_offsets trigger_channel / (gain : ℚ)
  let resolution := g.resolution
  let level := ratTrunc ((trigger_voltage - offset) / range * (resolution : ℚ))
  let levelN := (clamp level 1 (((resolution + 65535) % 65536 : Nat) : Int)).toNat
  if trigger_dir = Edge.any then
    ({ channel := trigger_channel, level := levelN, waiting := 0,
       timeout := trigger_timeout, ready := true,
       polarity := decide (preSample < levelN) },
     [Event.ADCintEnable])
  else
    ({ channel := trigger_channel, level := levelN, waiting := 0,
       timeout := trigger_timeout, ready := false, polarity := false },
     [Event.ADCintEnable])

/-- The descending DMA fall-through switch on g_state.num_channels in
static void trigger of oscilloscope.c. -/
def osc_dma_chain (n : Nat) : List Event :=
  match n with
  | 4 => [Event.DMAstartFast 3, Event.DMAstartFast 2, Event.DMAstartFast 1, Event.DMAstartFast 0]
  | 3 => [Event.DMAstartFast 2, Event.DMAstartFast 1, Event.DMAstartFast 0]
  | 2 => [Event.DMAstartFast 1, Event.DMAstartFast 0]
  | 1 => [Event.DMAstartFast 0]
  | _ => []

/-- static void trigger(Channel channel) of oscilloscope.c, the per-sample
evaluation run from the ADC interrupt.  sample models
*ADC_p_BUFFERS[ts.channel].  The source copies g_trigger_state into the
local struct ts, increments ts.waiting (uint16_t), computes sample polarity
(sample >= level), ORs ts.ready with the polarity difference, and fires on
timeout or on ready AND polarity match - but it never stores the local ts
back to g_trigger_state, so the returned persistent state is the unmodified
input.  Returns (persistent state, triggered, capability calls). -/
def OSC_trigger (g : OscilloscopeState) (gts : TriggerState) (sample : Nat) :
    TriggerState × Bool × List Event :=
  let w := (gts.waiting + 1) % 65536
  let t1 := decide (gts.timeout < w)
  let sample_polarity := decide (gts.level ≤ sample)
  let polarity_equal := gts.polarity == sample_polarity
  let ready1 := gts.ready || !polarity_equal
  let triggered := t1 || (ready1 && polarity_equal)
  (gts, triggered,
   if triggered then osc_dma_chain g.num_channels ++ [Event.ADCintDisable] else [])

/-- Delivers a list of samples to OSC_trigger one interrupt at a time,
threading the persistent trigger state, and collects the per-call
triggered flags. -/
def OSC_run (g : OscilloscopeState) (gts : TriggerState) (samples : List Nat) :
    TriggerState × List Bool :=
  match samples with
  | [] => (gts, [])
  | smp :: rest =>
      let r := OSC_trigger g gts smp
      let r2 := OSC_run g r.1 rest
      (r2.1, r.2.1 :: r2.2)

/-- Monotonicity of a list of raw timer captures, threaded from a previous
value: true when each element is at least its predecessor (prev first). -/
def nondecreasingFrom (prev : Nat) (ts : List Nat) : Bool :=
  match ts with
  | [] => true
  | t :: r => decide (prev ≤ t) && nondecreasingFrom t r

/-- The capability trace LA_stop emits when the instrument is locked:
CN_reset, TMR_reset, then per channel IC_reset, the DMA progress read
feeding final_progress, and DMA_reset. -/
def la_stop_trace : List Event :=
  [Event.CNreset, Event.TMRreset,
   Event.ICreset 0, Event.DMAprogressRead 0, Event.DMAreset 0,
   Event.ICreset 1, Event.DMAprogressRead 1, Event.DMAreset 1,
   Event.ICreset 2, Event.DMAprogressRead 2, Event.DMAreset 2,
   Event.ICreset 3, Event.DMAprogressRead 3, Event.DMAreset 3]

/-- Oscilloscope state after a representative setup call:
setup(num_channels=1, samples=100, timegap=1, gains 1).  The timegap is
below the 12-bit threshold, so the active resolution of this session is
10 bit (1024 counts). -/
def osc_after_setup : OscilloscopeState := (OSC_setup OSC_STATE_DEFAULT 1 100 1 1 1).1

/-- Trigger state armed for an any-edge trigger on channel 0 with the
pre-arm sample 0 (below the level) and timeout 10, after the setup above. -/
def armed_any : TriggerState := (OSC_arm osc_after_setup 0 (33 / 10) Edge.any 10 0).1

/-- Logic analyzer state about to fire with n configured channels capturing
rising edges (as left by setup for an immediate trigger). -/
def la_fire_state (n : Nat) : LogicAnalyzerState :=
  { g_STATE_DEFAULT with configured_channels := n, capture_edge := Edge.rising }

/-- The capability trace of the fire sequence for n configured channels. -/
def la_fire_trace (n : Nat) : List Event :=
  (LA_trigger (la_fire_state n) Option.none 0).2

/-- A mid-capture state: LA_capture(2 channels, 10 events, rising, no
trigger pin) fired immediately, then channel 0's completion callback ran;
channel 1 is still active, so the instrument is still locked. -/
def la_mid_capture : LogicAnalyzerState :=
  (runCleanups (LA_capture g_STATE_DEFAULT 2 10 Edge.rising Option.none Edge.none 0).2.1 [0]).1

/-- A locked instrument state with an unfinished session in flight. -/
def la_locked_state : LogicAnalyzerState := { g_STATE_DEFAULT with locked := true }

/-- A locked two-channel session awaiting both completion callbacks, with 7
events requested per channel. -/
def la_armed2 : LogicAnalyzerState :=
  { g_STATE_DEFAULT with locked := true, configured_channels := 2,
                         active_channels := 2, events_per_channel := 7 }

/-- A completed one-channel session whose channel captured 3 events starting
at buffer offset 0. -/
def la_done_state : LogicAnalyzerState :=
  { g_STATE_DEFAULT with configured_channels := 1, final_progress := fun _ => 3 }

/-- Sample buffer contents holding the raw clock values 100, 150, 400 at
offsets 0, 1, 2. -/
def la_buf : Nat → Nat := fun a => [100, 150, 400].getD a 0

lemma runCleanups_cons (s : LogicAnalyzerState) (ch : Nat) (r : List Nat) :
    runCleanups s (ch :: r) =
      ((runCleanups (cleanup_callback s ch).1 r).1,
       (cleanup_callback s ch).2 ++ (runCleanups (cleanup_callback s ch).1 r).2) := rfl

lemma cleanup_events_per (s : LogicAnalyzerState) (ch : Nat) :
    (cleanup_callback s ch).1.events_per_channel = s.events_per_channel := by
  simp only [cleanup_callback]; split <;> rfl

lemma cleanup_configured (s : LogicAnalyzerState) (ch : Nat) :
    (cleanup_callback s ch).1.configured_channels = s.configured_channels := by
  simp only [cleanup_callback]; split <;> rfl

lemma cleanup_active (s : LogicAnalyzerState) (ch : Nat) :
    (cleanup_callback s ch).1.active_channels = (s.active_channels + 255) % 256 := by
  simp only [cleanup_callback]; split <;> rfl

lemma cleanup_fp (s : LogicAnalyzerState) (ch : Nat) :
    (cleanup_callback s ch).1.final_progress =
      Function.update s.final_progress ch s.events_per_channel := by
  simp only [cleanup_callback]; split <;> rfl

lemma cleanup_locked_pos (s : LogicAnalyzerState) (ch : Nat)
    (h : (s.active_channels + 255) % 256 ≠ 0) :
    (cleanup_callback s ch).1.locked = s.locked ∧
      (cleanup_callback s ch).2 = [Event.DMAreset ch, Event.ICreset ch] := by
  simp only [cleanup_callback]; simp [h]

lemma cleanup_locked_zero (s : LogicAnalyzerState) (ch : Nat)
    (h : (s.active_channels + 255) % 256 = 0) :
    (cleanup_callback s ch).1.locked = false ∧
      (cleanup_callback s ch).2 = [Event.DMAreset ch, Event.ICreset ch, Event.TMRreset] := by
  simp only [cleanup_callback]; simp [h]

lemma runCleanups_events_per (l : List Nat) (s : LogicAnalyzerState) :
    (runCleanups s l).1.events_per_channel = s.events_per_channel := by
  induction l generalizing s with
  | nil => rfl
  | cons ch r ih => rw [runCleanups_cons]; simp [ih, cleanup_events_per]

lemma runCleanups_configured (l : List Nat) (s : LogicAnalyzerState) :
    (runCleanups s l).1.configured_channels = s.configured_channels := by
  induction l generalizing s with
  | nil => rfl
  | cons ch r ih => rw [runCleanups_cons]; simp [ih, cleanup_configured]

lemma runCleanups_active (l : List Nat) (s : LogicAnalyzerState) (m : Nat)
    (h : s.active_channels = l.length + m) (hb : l.length + m ≤ 256) :
    (runCleanups s l).1.active_channels = m := by
  induction l generalizing s with
  | nil => simpa using h
  | cons ch r ih =>
    rw [runCleanups_cons]
    simp only []
    apply ih
    · rw [cleanup_active, h]
      simp only [List.length_cons] at hb ⊢
      omega
    · simp only [List.length_cons] at hb
      omega

lemma runCleanups_locked_pos (l : List Nat) (s : LogicAnalyzerState) (m : Nat)
    (h : s.active_channels = l.length + m) (hb : l.length + m ≤ 256) (hm : 1 ≤ m) :
    (runCleanups s l).1.locked = s.locked ∧
      Event.TMRreset ∉ (runCleanups s l).2 := by
  induction l generalizing s with
  | nil => simp [runCleanups]
  | cons ch r ih =>
    rw [runCleanups_cons]
    have hnz : (s.active_channels + 255) % 256 ≠ 0 := by
      rw [h]; simp only [List.length_cons] at hb ⊢; omega
    obtain ⟨hl, ht⟩ := cleanup_locked_pos s ch hnz
    have hact : (cleanup_callback s ch).1.active_channels = r.length + m := by
      rw [cleanup_active, h]; simp only [List.length_cons] at hb ⊢; omega
    have hb' : r.length + m ≤ 256 := by simp only [List.length_cons] at hb; omega
    obtain ⟨ihl, iht⟩ := ih _ hact hb'
    refine ⟨by rw [ihl, hl], ?_⟩
    rw [ht]
    simp [iht]

lemma runCleanups_locked_done (l : List Nat) (s : LogicAnalyzerState)
    (hne : l ≠ []) (h : s.active_channels = l.length) (hb : l.length ≤ 256) :
    (runCleanups s l).1.locked = false ∧
      (runCleanups s l).2.count Event.TMRreset = 1 := by
  induction l generalizing s with
  | nil => exact absurd rfl hne
  | cons ch r ih =>
    rw [runCleanups_cons]
    rcases r with _ | ⟨ch2, r2⟩
    · have hz : (s.active_channels + 255) % 256 = 0 := by rw [h]; simp
      obtain ⟨hl, ht⟩ := cleanup_locked_zero s ch hz
      have hnil : runCleanups (cleanup_callback s ch).1 [] = ((cleanup_callback s ch).1, []) := rfl
      rw [hnil]
      refine ⟨hl, ?_⟩
      rw [ht]
      simp [List.count_cons]
    · have hnz : (s.active_channels + 255) % 256 ≠ 0 := by
        rw [h]; simp only [List.length_cons] at hb ⊢; omega
      obtain ⟨hl, ht⟩ := cleanup_locked_pos s ch hnz
      have hact : (cleanup_callback s ch).1.active_channels = (ch2 :: r2).length := by
        rw [cleanup_active, h]; simp only [List.length_cons] at hb ⊢; omega
      have hb' : (ch2 :: r2).length ≤ 256 := by simp only [List.length_cons] at hb ⊢; omega
      obtain ⟨ihl, iht⟩ := ih _ (List.cons_ne_nil _ _) hact hb'
      refine ⟨ihl, ?_⟩
      rw [ht, List.count_append, iht]
      simp [List.count_cons]

lemma runCleanups_fp_of_not_mem (l : List Nat) (s : LogicAnalyzerState) (c : Nat)
    (h : c ∉ l) :
    (runCleanups s l).1.final_progress c = s.final_progress c := by
  induction l generalizing s with
  | nil => rfl
  | cons ch r ih =>
    rw [runCleanups_cons]
    simp only [List.mem_cons, not_or] at h
    rw [ih _ h.2, cleanup_fp, Function.update_noteq h.1]

lemma runCleanups_fp_of_mem (l : List Nat) (s : LogicAnalyzerState) (c : Nat)
    (h : c ∈ l) :
    (runCleanups s l).1.final_progress c = s.events_per_channel := by
  induction l generalizing s with
  | nil => simp at h
  | cons ch r ih =>
    rw [runCleanups_cons]
    by_cases hr : c ∈ r
    · rw [ih _ hr, cleanup_events_per]
    · have hc : c = ch := by
        rcases List.mem_cons.1 h with h1 | h1
        · exact h1
        · exact absurd h1 hr
      rw [runCleanups_fp_of_not_mem r _ c hr, cleanup_fp, hc, Function.update_same]

lemma timedeltas_eq_zipWith (ts : List Nat) (prev : Nat)
    (hch : nondecreasingFrom prev ts = true)
    (hb : ∀ t ∈ ts, t < 65536) (hp : prev < 65536) :
    timedeltas prev ts = List.zipWith (fun c p => c - p) ts (prev :: ts) := by
  induction ts generalizing prev with
  | nil => rfl
  | cons t r ih =>
    simp only [nondecreasingFrom, Bool.and_eq_true, decide_eq_true_eq] at hch
    obtain ⟨hpt, hch2⟩ := hch
    have hbt : t < 65536 := hb t (List.mem_cons_self t r)
    have hhead : (t + 65536 - prev) % 65536 = t - prev := by omega
    simp only [timedeltas, List.zipWith]
    rw [hhead]
    exact congrArg _ (ih t hch2 (fun x hx => hb x (List.mem_cons_of_mem t hx)) hbt)

lemma Ico_word_disjoint (a b c d : Nat) (h : b ≤ c) :
    Disjoint (Finset.Ico a b) (Finset.Ico c d) := by
  rw [Finset.disjoint_left]
  intro x hx hx2
  rw [Finset.mem_Ico] at hx hx2
  omega

lemma tmr_escalate_of_le (p d : Nat) (h : d ≤ 65535) : tmr_escalate p d = (p, d) := by
  rw [tmr_escalate, if_neg (by omega)]

lemma tmr_escalate_of_gt (p d : Nat) (h : 65535 < d) :
    tmr_escalate p d = tmr_escalate (p + 1) (d / 8) := by
  conv_lhs => rw [tmr_escalate]
  rw [if_pos h]

/-- C1: the claim mandates the fire-sequence order (1) start every
configured channel's edge detector, discarding one stale capture each,
(2) start the shared capture clock TMR5, (3) start each channel's DMA
mover, (4) read the initial pin states.  The source's own comment in
static void trigger mandates the same order, but the fall-through switch
starts each channel's DMA mover immediately after that channel's detector,
before TMR5 is started and (for higher channels) before lower channels'
detectors are started.  For every n in 1..4 the trace of the fire sequence
starts a DMA mover before TMR5, and for n = 2 DMA mover 1 starts before
channel 0's detector; the full n = 1 trace is displayed. -/
theorem la_fire_order_violation :
    ((la_fire_trace 1).indexOf (Event.DMAstartFast 0) <
       (la_fire_trace 1).indexOf Event.TMRstartFast) ∧
    ((la_fire_trace 2).indexOf (Event.DMAstartFast 1) <
       (la_fire_trace 2).indexOf Event.TMRstartFast) ∧
    ((la_fire_trace 3).indexOf (Event.DMAstartFast 2) <
       (la_fire_trace 3).indexOf Event.TMRstartFast) ∧
    ((la_fire_trace 4).indexOf (Event.DMAstartFast 3) <
       (la_fire_trace 4).indexOf Event.TMRstartFast) ∧
    ((la_fire_trace 2).indexOf (Event.DMAstartFast 1) <
       (la_fire_trace 2).indexOf (Event.ICstartFast 0 Edge.rising)) ∧
    la_fire_trace 1 =
      [Event.ICstartFast 0 Edge.rising, Event.ICbufRead 0, Event.DMAstartFast 0,
       Event.TMRstartFast, Event.PINSread, Event.TMRsetPeriod 0] := by
  decide

/-- C2: the claim says each sample delivered to the armed trigger
increments the persistent waiting counter (waiting == k after k samples)
and latches ready permanently once the sample position differs from the
armed polarity expectation.  The source's trigger function mutates only a
local copy of g_trigger_state and never stores it back: after an any-edge
arm (pre-arm sample 0, below the level) and two below-level samples the
persistent state is bit-for-bit unchanged with waiting still 0, and in a
rising-armed state a below-level sample fails to latch ready, so the
following above-level sample does not fire (flags all false). -/
theorem osc_trigger_state_never_persisted :
    armed_any = ⟨0, 1, 0, 10, true, true⟩ ∧
    armed_any.waiting = 0 ∧
    OSC_run osc_after_setup armed_any [0, 0] = (armed_any, [false, false]) ∧
    (OSC_run osc_after_setup armed_any [0, 0]).1.waiting = 0 ∧
    OSC_run osc_after_setup ⟨0, 512, 0, 100, false, true⟩ [600, 100, 600] =
      (⟨0, 512, 0, 100, false, true⟩, [false, false, false]) := by
  have harm : armed_any = ⟨0, 1, 0, 10, true, true⟩ := by
    have hres : osc_after_setup.resolution = 0 := rfl
    simp [armed_any, OSC_arm, hres, ratTrunc, clamp]
  rw [harm]
  refine ⟨rfl, rfl, ?_, ?_, ?_⟩ <;> decide

/-- C3: a capture request on a locked instrument returns the busy outcome
(encoded FAILED in the source, distinct from SUCCESS and from
ARGUMENT_ERROR), leaves the entire instrument state unchanged, and performs
no capability calls. -/
theorem la_capture_busy (s : LogicAnalyzerState) (num_channels events : Nat)
    (edge : Edge) (trigger_pin : Channel) (trigger_edge : Edge) (pins : Nat)
    (h : s.locked = true) :
    LA_capture s num_channels events edge trigger_pin trigger_edge pins =
      (response_t.FAILED, s, []) ∧
    response_t.FAILED ≠ response_t.SUCCESS ∧
    response_t.FAILED ≠ response_t.ARGUMENT_ERROR := by
  refine ⟨?_, by decide, by decide⟩
  simp [LA_capture, h]

/-- Witness for la_capture_busy at a concrete locked state. -/
theorem la_capture_busy_witness :
    la_locked_state.locked = true ∧
    LA_capture la_locked_state 2 10 Edge.rising Option.none Edge.none 0 =
      (response_t.FAILED, la_locked_state, []) :=
  ⟨rfl, (la_capture_busy la_locked_state 2 10 Edge.rising Option.none Edge.none 0 rfl).1⟩

/-- C4: the claim says an unlocked capture with events * num_channels
exceeding the buffer capacity returns ARGUMENT_ERROR with no side effects;
but the source computes the product in the target's 16-bit unsigned
arithmetic, so with events = 33000 and num_channels = 2 the true product
66000 exceeds the 10000-word capacity while the wrapped product 464 passes
validation: the capture returns SUCCESS, locks the instrument and performs
capability calls. -/
theorem la_capture_overflow_bypass :
    33000 * 2 > BUFFER_SIZE ∧
    (LA_capture g_STATE_DEFAULT 2 33000 Edge.rising Option.none Edge.none 0).1 =
      response_t.SUCCESS ∧
    (LA_capture g_STATE_DEFAULT 2 33000 Edge.rising Option.none Edge.none 0).2.1.locked = true ∧
    (LA_capture g_STATE_DEFAULT 2 33000 Edge.rising Option.none Edge.none 0).2.2 ≠ [] := by
  decide

/-- C5: after the completion callback has run once for each of the n
configured channels, in any order l: the instrument is unlocked,
active_channels is 0, every channel's final_progress equals the requested
events per channel, and LA_get_progress reports done = true with those
counts; moreover after any strict leading part of l the instrument is still
locked with no TMR_reset issued, and the full run issues TMR_reset exactly
once (by the callback that brings active_channels to 0). -/
theorem la_completion_unlocks (n e : Nat) (l : List Nat) (s : LogicAnalyzerState)
    (dma : Nat → Nat)
    (hn1 : 1 ≤ n) (hn4 : n ≤ 4)
    (hlocked : s.locked = true) (hc : s.configured_channels = n)
    (ha : s.active_channels = n) (he : s.events_per_channel = e)
    (hlen : l.length = n) (hnd : l.Nodup) (hmem : ∀ c ∈ l, c < n) :
    (runCleanups s l).1.locked = false ∧
    (runCleanups s l).1.active_channels = 0 ∧
    (∀ i, i < n → (runCleanups s l).1.final_progress i = e) ∧
    LA_get_progress (runCleanups s l).1 dma = (n, true, List.replicate n e) ∧
    (∀ p q, l = p ++ q → q ≠ [] →
      (runCleanups s p).1.locked = true ∧ Event.TMRreset ∉ (runCleanups s p).2) ∧
    (runCleanups s l).2.count Event.TMRreset = 1 := by
  have hne : l ≠ [] := by
    intro hl; rw [hl] at hlen; simp at hlen; omega
  have hb : l.length ≤ 256 := by omega
  obtain ⟨hdone, hcount⟩ := runCleanups_locked_done l s hne (by rw [ha, hlen]) hb
  have hcov : ∀ i, i < n → i ∈ l := by
    have hsub : l.toFinset ⊆ Finset.range n := by
      intro x hx
      exact Finset.mem_range.2 (hmem x (List.mem_toFinset.1 hx))
    have hcard : (Finset.range n).card ≤ l.toFinset.card := by
      rw [Finset.card_range, List.toFinset_card_of_nodup hnd, hlen]
    have heq := Finset.eq_of_subset_of_card_le hsub hcard
    intro i hi
    have h2 : i ∈ Finset.range n := Finset.mem_range.2 hi
    rw [← heq] at h2
    exact List.mem_toFinset.1 h2
  have hfp : ∀ i, i < n → (runCleanups s l).1.final_progress i = e := by
    intro i hi
    rw [runCleanups_fp_of_mem l s i (hcov i hi), he]
  refine ⟨hdone, ?_, hfp, ?_, ?_, hcount⟩
  · exact runCleanups_active l s 0 (by omega) (by omega)
  · have hcfg : (runCleanups s l).1.configured_channels = n := by
      rw [runCleanups_configured, hc]
    simp only [LA_get_progress, hcfg, hdone]
    refine Prod.ext rfl (Prod.ext rfl ?_)
    simp only []
    apply List.eq_replicate_iff.2
    refine ⟨by simp, ?_⟩
    intro b hb2
    simp only [List.mem_map, List.mem_range] at hb2
    obtain ⟨i, hi, hbi⟩ := hb2
    rw [← hbi]
    simp [hfp i hi]
  · intro p q hpq hq
    have hm1 : 1 ≤ q.length := List.length_pos.2 hq
    have hsplit : s.active_channels = p.length + q.length := by
      rw [ha, ← hlen, hpq, List.length_append]
    obtain ⟨hl2, ht2⟩ := runCleanups_locked_pos p s q.length hsplit
      (by rw [← List.length_append, ← hpq, hlen]; omega) hm1
    exact ⟨by rw [hl2, hlocked], ht2⟩

/-- Witness for la_completion_unlocks: a locked two-channel session with 7
events per channel, callbacks arriving in the order channel 1 then 0. -/
theorem la_completion_unlocks_witness :
    ([1, 0] : List Nat).Nodup ∧
    (runCleanups la_armed2 [1, 0]).1.locked = false ∧
    (runCleanups la_armed2 [1, 0]).1.active_channels = 0 ∧
    LA_get_progress (runCleanups la_armed2 [1, 0]).1 (fun _ => 0) =
      (2, true, List.replicate 2 7) := by
  have h := la_completion_unlocks 2 7 [1, 0] la_armed2 (fun _ => 0)
    (by decide) (by decide) rfl rfl rfl rfl rfl (by decide) (by decide)
  exact ⟨by decide, h.1, h.2.1, h.2.2.2.1⟩

/-- C6 counterexample: the claim says stop() called mid-capture leaves
active_channels == 0, but the source's LA_stop never writes
active_channels.  In a reachable mid-capture state (two channels captured,
one completion callback already delivered, instrument still locked),
LA_stop unlocks the instrument yet leaves active_channels at 1. -/
theorem la_stop_leaves_active_nonzero :
    la_mid_capture.locked = true ∧
    la_mid_capture.active_channels = 1 ∧
    (LA_stop la_mid_capture (fun _ => 0)).2.1.locked = false ∧
    (LA_stop la_mid_capture (fun _ => 0)).2.1.active_channels = 1 ∧
    ¬ (LA_stop la_mid_capture (fun _ => 0)).2.1.active_channels = 0 := by
  decide

/-- C6 (amended): stop() always returns SUCCESS; on an idle (unlocked)
instrument it changes nothing and performs no capability calls; on a locked
instrument it emits exactly the trace CN_reset, TMR_reset, and per channel
IC_reset, a live DMA progress read (snapshotted into final_progress) and
then that channel's DMA_reset, clears locked, and leaves active_channels
(and all other configuration fields) unchanged rather than zeroing it; a
second consecutive stop() is a no-op. -/
theorem la_stop_spec (s : LogicAnalyzerState) (dma dma2 : Nat → Nat) :
    (s.locked = false → LA_stop s dma = (response_t.SUCCESS, s, [])) ∧
    (s.locked = true →
      (LA_stop s dma).1 = response_t.SUCCESS ∧
      (LA_stop s dma).2.1.locked = false ∧
      (∀ i, i < 4 → (LA_stop s dma).2.1.final_progress i = dma i) ∧
      (∀ i, 4 ≤ i → (LA_stop s dma).2.1.final_progress i = s.final_progress i) ∧
      (LA_stop s dma).2.1.active_channels = s.active_channels ∧
      (LA_stop s dma).2.1.configured_channels = s.configured_channels ∧
      (LA_stop s dma).2.2 = la_stop_trace) ∧
    LA_stop (LA_stop s dma).2.1 dma2 = (response_t.SUCCESS, (LA_stop s dma).2.1, []) := by
  refine ⟨?_, ?_, ?_⟩
  · intro hl
    simp [LA_stop, hl]
  · intro hl
    have hstop : LA_stop s dma =
        (response_t.SUCCESS,
         { s with locked := false,
                  final_progress :=
                    Function.update (Function.update (Function.update
                      (Function.update s.final_progress 0 (dma 0)) 1 (dma 1)) 2 (dma 2)) 3 (dma 3) },
         la_stop_trace) := by
      simp [LA_stop, hl, la_stop_trace]
    rw [hstop]
    refine ⟨rfl, rfl, ?_, ?_, rfl, rfl, rfl⟩
    · intro i hi
      interval_cases i <;> simp [Function.update]
    · intro i hi
      simp only []
      rw [Function.update_noteq (by omega), Function.update_noteq (by omega),
          Function.update_noteq (by omega), Function.update_noteq (by omega)]
  · by_cases hl : s.locked = true
    · simp [LA_stop, hl]
    · have hl2 : s.locked = false := by
        revert hl
        cases s.locked <;> simp
      have hstop : LA_stop s dma = (response_t.SUCCESS, s, []) := by
        simp [LA_stop, hl2]
      rw [hstop]
      simp [LA_stop, hl2]

/-- Witness for la_stop_spec: the locked branch at the reachable mid-capture
state and the idle branch at the default state. -/
theorem la_stop_spec_witness :
    la_mid_capture.locked = true ∧
    (LA_stop la_mid_capture (fun _ => 0)).2.1.locked = false ∧
    (LA_stop la_mid_capture (fun _ => 0)).2.2 = la_stop_trace ∧
    LA_stop g_STATE_DEFAULT (fun _ => 0) = (response_t.SUCCESS, g_STATE_DEFAULT, []) := by
  have h1 := la_stop_spec la_mid_capture (fun _ => 0) (fun _ => 0)
  have h2 := la_stop_spec g_STATE_DEFAULT (fun _ => 0) (fun _ => 0)
  exact ⟨by decide, (h1.2.1 (by decide)).2.1, (h1.2.1 (by decide)).2.2.2.2.2.2,
         h2.1 rfl⟩

/-- C7: the claim says the stored trigger level is the requested voltage
quantized to the active resolution and clamped so that a voltage quantizing
to 1024 at resolution 1024 is stored as 1023.  But setup never writes
g_state.resolution (the computed resolution is a local variable), so arm
always quantizes with resolution 0: the quantized value is 0 and the clamp
upper bound is the uint16_t wrap of 0 - 1, and the stored level is 1 for
every requested voltage, every direction and every channel. -/
theorem osc_trigger_level_stuck :
    osc_after_setup.resolution = 0 ∧
    (∀ v : ℚ, ∀ dir : Edge, ∀ ch : Nat, ∀ tmo pre : Nat,
      (OSC_arm osc_after_setup ch v dir tmo pre).1.level = 1) := by
  refine ⟨rfl, ?_⟩
  intro v dir ch tmo pre
  have hres : osc_after_setup.resolution = 0 := rfl
  rcases dir <;> simp [OSC_arm, hres, ratTrunc, clamp]

/-- C8: for a channel with captured raw timestamps, LA_get_timestamps emits
for that channel its event count paired with the consecutive deltas of its
raw values, where the first delta is the first raw value minus 0 and each
later delta is the current raw value minus the immediately preceding raw
value (provided the raw values are nondecreasing 16-bit values, matching
the source's uint16_t subtraction). -/
theorem la_timedeltas_spec (s : LogicAnalyzerState) (buf : Nat → Nat) (i : Nat)
    (hi : i < s.configured_channels)
    (hch : nondecreasingFrom 0 (channel_raw s buf i) = true)
    (hb : ∀ t ∈ channel_raw s buf i, t < 65536) :
    ((LA_get_timestamps s buf).2.2.2)[i]? =
      some (s.final_progress i, timedeltas 0 (channel_raw s buf i)) ∧
    timedeltas 0 (channel_raw s buf i) =
      List.zipWith (fun c p => c - p) (channel_raw s buf i) (0 :: channel_raw s buf i) := by
  constructor
  · simp [LA_get_timestamps, List.getElem?_map, List.getElem?_range, hi]
  · exact timedeltas_eq_zipWith (channel_raw s buf i) 0 hch hb (by omega)

/-- Witness for la_timedeltas_spec: raw values 100, 150, 400 yield the
deltas 100, 50, 250. -/
theorem la_timedeltas_spec_witness :
    channel_raw la_done_state la_buf 0 = [100, 150, 400] ∧
    timedeltas 0 (channel_raw la_done_state la_buf 0) = [100, 50, 250] := by
  have h := la_timedeltas_spec la_done_state la_buf 0 (by decide) (by decide) (by decide)
  refine ⟨by decide, ?_⟩
  rw [h.2]
  decide

/-- C9: the claim says the escalation leaves the prescaler at one of the
four supported factors with prescaler times period equal to the raw tick
count up to integer-division rounding.  The loop divides the period by 8
per escalation step, but the supported factor sequence declared in tmr.h
(x1, x8, x64, x256) grows only x4 in its last step, and the ++prescaler
increment is unbounded.  At the requested interval 5/32 s (10,000,000
ticks at FCY) the loop ends at the supported x256 setting (value 3) with
period 10000000 / 512 = 19531, and 256 * (19531 + 1) is still far below
the tick count, refuting the product property at a supported factor (the
timer runs about twice as fast as requested); at 17/32 s (34,000,000
ticks) the loop escalates four times and setup passes the unsupported
prescaler value 4, past TMR_PRESCALER_256 = 3, to TMR_set_prescaler. -/
theorem tmr_escalate_overflow :
    tmr_escalate 0 10000000 = (3, 19531) ∧
    256 * (19531 + 1) < 10000000 ∧
    Event.TMRsetPrescaler 3 ∈ (OSC_setup OSC_STATE_DEFAULT 1 100 (5 / 32) 1 1).2 ∧
    Event.TMRsetPeriod 19531 ∈ (OSC_setup OSC_STATE_DEFAULT 1 100 (5 / 32) 1 1).2 ∧
    (tmr_escalate 0 34000000).1 = 4 ∧ 3 < (tmr_escalate 0 34000000).1 ∧
    Event.TMRsetPrescaler 4 ∈ (OSC_setup OSC_STATE_DEFAULT 1 100 (17 / 32) 1 1).2 := by
  have hesc10 : tmr_escalate 0 10000000 = (3, 19531) := by
    rw [tmr_escalate_of_gt _ _ (by norm_num), tmr_escalate_of_gt _ _ (by norm_num),
        tmr_escalate_of_gt _ _ (by norm_num)]
    norm_num
    exact tmr_escalate_of_le _ _ (by norm_num)
  have hesc34 : tmr_escalate 0 34000000 = (4, 8300) := by
    rw [tmr_escalate_of_gt _ _ (by norm_num), tmr_escalate_of_gt _ _ (by norm_num),
        tmr_escalate_of_gt _ _ (by norm_num), tmr_escalate_of_gt _ _ (by norm_num)]
    norm_num
    exact tmr_escalate_of_le _ _ (by norm_num)
  have hq10 : ((5 : ℚ) / 32) * ((FCY : Nat) : ℚ) = (10000000 : ℚ) := by
    norm_num [FCY]
  have htr10 : ratTrunc (((5 : ℚ) / 32) * ((FCY : Nat) : ℚ)) = (10000000 : Int) := by
    rw [hq10]
    simp [ratTrunc]
  have hnat10 : (10000000 : Int).toNat % 4294967296 = 10000000 := by decide
  have hq34 : ((17 : ℚ) / 32) * ((FCY : Nat) : ℚ) = (34000000 : ℚ) := by
    norm_num [FCY]
  have htr34 : ratTrunc (((17 : ℚ) / 32) * ((FCY : Nat) : ℚ)) = (34000000 : Int) := by
    rw [hq34]
    simp [ratTrunc]
  have hnat34 : (34000000 : Int).toNat % 4294967296 = 34000000 := by decide
  refine ⟨hesc10, by norm_num, ?_, ?_, by rw [hesc34], by rw [hesc34]; norm_num, ?_⟩
  · simp only [OSC_setup, htr10, hnat10, hesc10]
    simp
  · simp only [OSC_setup, htr10, hnat10, hesc10]
    simp
  · simp only [OSC_setup, htr34, hnat34, hesc34]
    simp

/-- Behaviour of the escalation loop for tick counts needing at most three
escalations (at most 65535 * 512 ticks): the step counter stays at most 3,
the final period fits the 16-bit register and equals ticks / 8^steps, and
8^steps times the period equals the tick count up to integer-division
rounding.  Note 8^steps is the loop's division factor, not the hardware
prescale factor, which per tmr.h is only 256 (not 512) at step 3. -/
theorem tmr_escalate_bounded (ticks : Nat) (h : ticks ≤ 65535 * 512) :
    (tmr_escalate 0 ticks).1 ≤ 3 ∧
    (tmr_escalate 0 ticks).2 ≤ 65535 ∧
    (tmr_escalate 0 ticks).2 = ticks / 8 ^ (tmr_escalate 0 ticks).1 ∧
    8 ^ (tmr_escalate 0 ticks).1 * (tmr_escalate 0 ticks).2 ≤ ticks ∧
    ticks < 8 ^ (tmr_escalate 0 ticks).1 * ((tmr_escalate 0 ticks).2 + 1) := by
  by_cases h0 : ticks ≤ 65535
  · rw [tmr_escalate_of_le _ _ h0]
    simp only [pow_zero]
    omega
  · by_cases h1 : ticks ≤ 524287
    · rw [tmr_escalate_of_gt _ _ (by omega), tmr_escalate_of_le _ _ (by omega)]
      simp only [pow_one]
      omega
    · by_cases h2 : ticks ≤ 4194303
      · rw [tmr_escalate_of_gt _ _ (by omega), tmr_escalate_of_gt _ _ (by omega),
            tmr_escalate_of_le _ _ (by omega)]
        have : ticks / 8 / 8 = ticks / 64 := by omega
        rw [this]
        norm_num
        omega
      · rw [tmr_escalate_of_gt _ _ (by omega), tmr_escalate_of_gt _ _ (by omega),
            tmr_escalate_of_gt _ _ (by omega), tmr_escalate_of_le _ _ (by omega)]
        have : ticks / 8 / 8 / 8 = ticks / 512 := by omega
        rw [this]
        norm_num
        omega

/-- Concrete instance of tmr_escalate_bounded. -/
theorem tmr_escalate_bounded_witness :
    (1000000 : Nat) ≤ 65535 * 512 ∧
    (tmr_escalate 0 1000000).1 ≤ 3 ∧ (tmr_escalate 0 1000000).2 ≤ 65535 := by
  have h := tmr_escalate_bounded 1000000 (by norm_num)
  exact ⟨by norm_num, h.1, h.2.1⟩

/-- C10: for every accepted session with n channels (1..4) and e events or
samples per channel with e * n within the buffer capacity, every channel's
destination region (starting at its channel_address and spanning e words)
lies within the BUFFER_SIZE-word buffer, and the regions of two distinct
channels are disjoint, so no two DMA movers write the same buffer word. -/
theorem la_channel_regions_disjoint (n e i j : Nat)
    (hn1 : 1 ≤ n) (hn4 : n ≤ 4) (hcap : e * n ≤ BUFFER_SIZE)
    (hij : i < j) (hjn : j < n) :
    (∀ k, k < n → channel_address k n + e ≤ BUFFER_SIZE) ∧
    Disjoint (Finset.Ico (channel_address i n) (channel_address i n + e))
             (Finset.Ico (channel_address j n) (channel_address j n + e)) := by
  constructor
  · intro k hk
    simp only [channel_address, BUFFER_SIZE] at *
    interval_cases n <;> interval_cases k <;> omega
  · refine Ico_word_disjoint _ _ _ _ ?_
    simp only [channel_address, BUFFER_SIZE] at *
    interval_cases n <;> interval_cases j <;> interval_cases i <;> omega

/-- Witness for la_channel_regions_disjoint: two channels of 5000 words
each fill the buffer exactly and do not overlap. -/
theorem la_channel_regions_disjoint_witness :
    5000 * 2 ≤ BUFFER_SIZE ∧
    Disjoint (Finset.Ico (channel_address 0 2) (channel_address 0 2 + 5000))
             (Finset.Ico (channel_address 1 2) (channel_address 1 2 + 5000)) := by
  have h := la_channel_regions_disjoint 2 5000 0 1 (by decide) (by decide) (by decide)
    (by decide) (by decide)
  exact ⟨by decide, h.2⟩
